import Mathlib

/-!
Verification of the capture-producer and playback-scheduler core of libopenshot,
as implemented in `src/DecklinkInput.cpp` (class `DeckLinkInputDelegate`) and
`src/Qt/PlayerPrivate.cpp` (class `PlayerPrivate`).

The two C++ translation units are embedded shallowly: the delegate's counters,
raw-frame queue and reorder cache become a Lean state record, the arrival
callback and the fetch path become pure state-transition functions, and the
player's per-tick loop body becomes a function from the tick's inputs (reader
outcome, audio clock reading, measured render time) to the tick's outputs
(new state, position queried, frame handed to the render thread, sleep).

Machine-integer conventions: the unsigned long counters (`frameCount`,
`final_frameCount`) are modelled as `Nat`; the only place where the width of a
machine integer is observable in the claims is the comparison
`requested_frame > GetCurrentFrameNumber()` in `GetFrame`, where an `int64_t`
is compared against an `unsigned long`.  On the LP64 platforms this file
targets (the code uses `pthread` and `usleep`), both operands are 64-bit and
the usual arithmetic conversions make the comparison unsigned; this conversion
is modelled explicitly by `toUInt64Val`.
-/

namespace DeckLink

/-- An openshot frame as constructed by the conversion task
(`openshot::Frame(copy_frameCount, width, height, "#000000", 2048, 2)`,
DecklinkInput.cpp line 248).  The image data is never attached to the frame in
the source (the `AddImage` call at line 252 is commented out), so the record
holds exactly the constructor arguments.  `number` is the frame's sequence
number. -/
structure Frame where
  number : ℕ
  width : ℕ
  height : ℕ
  color : String
  samples : ℕ
  channels : ℕ
deriving DecidableEq

/-- A raw YUV frame copied out of the hardware buffer and queued for
conversion (DecklinkInput.cpp lines 168-190).  The pixel bytes themselves play
no role in any claim; the copied dimensions are kept. -/
structure RawYUVFrame where
  width : ℕ
  height : ℕ
  rowBytes : ℕ
deriving DecidableEq

/-- The `IDeckLinkVideoInputFrame` handed to `VideoInputFrameArrived`:
its no-input-source flag (`GetFlags() & bmdFrameHasNoInputSource`, line 144)
and its geometry. -/
structure InputVideoFrame where
  hasNoInputSource : Bool
  width : ℕ
  height : ℕ
  rowBytes : ℕ
deriving DecidableEq

/-- Modelled from the spec: the Reorder Cache (`openshot::Cache final_frames`;
the `Cache` class implementation is not under src/).  Per the spec it is a
frame-id-indexed mapping from frame id to `Frame` with insert, remove and
existence test, keys being the `int64_t` frame numbers; `Add` keys a frame by
its sequence number.  The configured byte budget (`SetMaxBytes`,
DecklinkInput.cpp line 68) is not exercised by any claim and its enforcement
policy is left undefined by the spec, so it is not modelled. -/
abbrev Cache := ℤ → Option Frame

/-- The empty cache. -/
def Cache.empty : Cache := fun _ => none

/-- `Cache::Add(f)`: insert a frame under its own sequence number. -/
def Cache.add (c : Cache) (f : Frame) : Cache :=
  fun k => if k = (f.number : ℤ) then some f else c k

/-- `Cache::Exists(k)`. -/
def Cache.Exists (c : Cache) (k : ℤ) : Bool := (c k).isSome

/-- `Cache::GetFrame(k)`. -/
def Cache.getFrame (c : Cache) (k : ℤ) : Option Frame := c k

/-- `Cache::Remove(k)`. -/
def Cache.remove (c : Cache) (k : ℤ) : Cache :=
  fun m => if m = k then none else c m

/-- The mutable state of a `DeckLinkInputDelegate`: the running sequence
counter `frameCount`, the published counter `final_frameCount`, the queue of
raw frames awaiting conversion, and the reorder cache `final_frames`
(DecklinkInput.cpp lines 60-71; the reference count and condition variable do
not participate in any claim). -/
structure DelegateState where
  frameCount : ℕ
  final_frameCount : ℕ
  raw_video_frames : List RawYUVFrame
  final_frames : Cache

/-- The state produced by the constructor (line 61): all counters zero, queue
and cache empty. -/
def initialState : DelegateState :=
  { frameCount := 0, final_frameCount := 0, raw_video_frames := [],
    final_frames := Cache.empty }

/-- `DeckLinkInputDelegate::GetCurrentFrameNumber` (lines 102-108):
`final_frameCount - 1` when positive, else `0`. -/
def GetCurrentFrameNumber (s : DelegateState) : ℕ :=
  if 0 < s.final_frameCount then s.final_frameCount - 1 else 0

/-- The value an `int64_t` contributes to a comparison against a 64-bit
`unsigned long` after the usual arithmetic conversions (two's complement
wrap-around into `[0, 2^64)`). -/
def toUInt64Val (n : ℤ) : ℕ := (n.emod (2 ^ 64)).toNat

/-- The guard of the poll loop in `GetFrame` (line 115): the caller keeps
sleeping 500µs while `requested_frame > GetCurrentFrameNumber()`.
`requested_frame` is `int64_t` and `GetCurrentFrameNumber()` returns
`unsigned long`, so the comparison is performed on the converted unsigned
value of `requested_frame`. -/
def getFrameWaits (s : DelegateState) (requested_frame : ℤ) : Bool :=
  decide (GetCurrentFrameNumber s < toUInt64Val requested_frame)

/-- Result of the body of `GetFrame` once the poll loop has exited:
the returned frame pointer (`none` models the empty `shared_ptr`), the
delegate state after the critical section, and whether the cache-miss
diagnostic dump (lines 130-131) was printed. -/
structure GetFrameResult where
  frame : Option Frame
  state : DelegateState
  diagnostic : Bool

/-- The critical section of `GetFrame` (lines 120-133), entered once the poll
loop has exited: if the requested id exists in the cache, fetch it and remove
it; otherwise print a diagnostic dump of the cache and return the empty
pointer. -/
def GetFrameBody (s : DelegateState) (requested_frame : ℤ) : GetFrameResult :=
  if s.final_frames.Exists requested_frame then
    { frame := s.final_frames.getFrame requested_frame,
      state := { s with final_frames := s.final_frames.remove requested_frame },
      diagnostic := false }
  else
    { frame := none, state := s, diagnostic := true }

/-- The frame built by one conversion task (lines 218-258): the task was
dispatched with the captured counter value `copy_frameCount` (line 216), and
the width and height are read from the `videoFrame` argument of the enclosing
callback (lines 227-228), not from the dequeued raw frame. -/
def taskFrame (copy_frameCount w h : ℕ) : Frame :=
  { number := copy_frameCount, width := w, height := h, color := "#000000",
    samples := 2048, channels := 2 }

/-- The frames produced by a batch of `b` conversion tasks dispatched from
counter value `fc`: the `i`-th dequeued raw frame is dispatched with sequence
number `fc + i`. -/
def batchFrames (fc b w h : ℕ) : List Frame :=
  (List.range b).map fun i => taskFrame (fc + i) w h

/-- The dispatch loop (lines 207-272): while the queue is nonempty, pop the
front raw frame, capture `copy_frameCount := frameCount`, dispatch the
conversion task (whose effect on the cache is `Cache.add (taskFrame ...)`),
and increment `frameCount`.  This is the sequential, dispatch-order execution
of the tasks; the theorems below show the resulting cache is the same for
every completion order. -/
def drainQueue : List RawYUVFrame → ℕ → Cache → ℕ → ℕ → ℕ × Cache
  | [], fc, c, _, _ => (fc, c)
  | _ :: rest, fc, c, w, h => drainQueue rest (fc + 1) (c.add (taskFrame fc w h)) w h

/-- The batch-processing block of `VideoInputFrameArrived` (lines 193-281):
`number_to_process` is the queue length at dispatch time (line 193), the queue
is drained through the task loop, and — after the implicit barrier at the end
of the `omp parallel` region (line 275) has joined every task —
`final_frameCount` is advanced by `number_to_process` in one step (line 278).
`w`/`h` are the dimensions of the arriving frame, which the tasks read. -/
def processQueuedFrames (s : DelegateState) (w h : ℕ) : DelegateState :=
  let number_to_process := s.raw_video_frames.length
  let r := drainQueue s.raw_video_frames s.frameCount s.final_frames w h
  { frameCount := r.1,
    final_frameCount := s.final_frameCount + number_to_process,
    raw_video_frames := [],
    final_frames := r.2 }

/-- `DeckLinkInputDelegate::VideoInputFrameArrived` (lines 138-286), video
path.  `P` is `OPEN_MP_NUM_PROCESSORS`, the batch threshold.  A null
`videoFrame` does nothing; a frame with no input source is logged and skipped
(neither counter moves, line 146); otherwise the frame is copied, enqueued
(line 190), and once the queue has reached `P` entries the whole queue is
converted and published as one batch (lines 194-281). -/
def VideoInputFrameArrived (P : ℕ) (s : DelegateState)
    (videoFrame : Option InputVideoFrame) : DelegateState :=
  match videoFrame with
  | none => s
  | some vf =>
    if vf.hasNoInputSource then s
    else
      let s1 := { s with raw_video_frames :=
        s.raw_video_frames ++ [⟨vf.width, vf.height, vf.rowBytes⟩] }
      if P ≤ s1.raw_video_frames.length then
        processQueuedFrames s1 vf.width vf.height
      else s1

/-- A consumer-observable micro-event of one batch-processing callback:
either a conversion task finishing and inserting its frame into the cache
inside the `blackmagic_input_queue` critical section (lines 254-258), or the
single publication step `final_frameCount += number_to_process` (line 278). -/
inductive BatchEvent where
  | insert (f : Frame)
  | publish (b : ℕ)
deriving DecidableEq

/-- Effect of one micro-event on the delegate state. -/
def applyEvent (s : DelegateState) : BatchEvent → DelegateState
  | .insert f => { s with final_frames := s.final_frames.add f }
  | .publish b => { s with final_frameCount := s.final_frameCount + b }

/-- Effect of a sequence of micro-events. -/
def applyEvents (s : DelegateState) (es : List BatchEvent) : DelegateState :=
  es.foldl applyEvent s

/-- The micro-event trace of one batch-processing callback whose tasks
complete in the order `π`: the inserts of the completed tasks, followed by the
single publish of the batch size.  The publish comes last because the implicit
barrier at the end of the `omp parallel` region (line 275) joins every task
before line 278 runs. -/
def batchTrace (π : List Frame) (b : ℕ) : List BatchEvent :=
  π.map BatchEvent.insert ++ [BatchEvent.publish b]

/-- The raw frame copied out of an arriving video frame (lines 168-190). -/
def copyOf (vf : InputVideoFrame) : RawYUVFrame :=
  { width := vf.width, height := vf.height, rowBytes := vf.rowBytes }

/-- Deliver a sequence of arrival callbacks, one at a time, to the delegate. -/
def feed (P : ℕ) (s : DelegateState) (arrivals : List InputVideoFrame) : DelegateState :=
  arrivals.foldl (fun st vf => VideoInputFrameArrived P st (some vf)) s

/-- The cache holds exactly the ids `[0, n)`, each bound to a frame carrying
that id. -/
def CacheJustRange (c : Cache) (n : ℕ) : Prop :=
  (∀ m : ℤ, 0 ≤ m → m < (n : ℤ) → ∃ f, c m = some f ∧ (f.number : ℤ) = m)
  ∧ (∀ m : ℤ, m < 0 ∨ (n : ℤ) ≤ m → c m = none)

/-- Quiescent delegate state after `n` frames have been fully published:
both counters read `n`, the raw queue is empty, and the cache holds exactly
the ids `[0, n)`. -/
def Steady (s : DelegateState) (n : ℕ) : Prop :=
  s.frameCount = n ∧ s.final_frameCount = n ∧ s.raw_video_frames = []
  ∧ CacheJustRange s.final_frames n

/-- A concrete raw frame used to instantiate the theorems below. -/
def rawFrame640 : RawYUVFrame := { width := 640, height := 480, rowBytes := 1280 }

/-- A concrete arrival with a live input signal. -/
def arrival640 : InputVideoFrame :=
  { hasNoInputSource := false, width := 640, height := 480, rowBytes := 1280 }

/-- A delegate state with two raw frames queued and nothing published. -/
def queuedState2 : DelegateState :=
  { frameCount := 0, final_frameCount := 0,
    raw_video_frames := [rawFrame640, rawFrame640], final_frames := Cache.empty }

/-- A delegate state after six frames have been published and fetched. -/
def publishedState6 : DelegateState :=
  { frameCount := 6, final_frameCount := 6, raw_video_frames := [],
    final_frames := Cache.empty }

/-- A delegate state with three frames published of which id 1 is still
cached. -/
def fetchState3 : DelegateState :=
  { frameCount := 3, final_frameCount := 3, raw_video_frames := [],
    final_frames := Cache.empty.add (taskFrame 1 640 480) }

end DeckLink

namespace Player

/-!
Embedding of `PlayerPrivate` (src/Qt/PlayerPrivate.cpp): the per-tick body of
the scheduling loop `run()` (lines 68-121), the position-advancing fetch
`getFrame()` (lines 131-147) and `Seek()` (lines 166-176).

Milliseconds are modelled as `ℚ` where the source computes in `double`
(`frame_time = 1000.0 / fps`) and as `ℤ` where it computes in integers
(`render_time`, `sleep_time`); the C++ `int(...)` casts and implicit
double-to-int conversions truncate toward zero, modelled by `ctrunc`.
-/

/-- C/C++ truncation toward zero of a rational: the conversion performed by an
`int(...)` cast or an implicit double-to-int conversion. -/
def ctrunc (q : ℚ) : ℤ := Int.tdiv q.num (q.den : ℤ)

/-- A frame handle returned by the Reader.  Modelled from the spec: the
Reader abstraction is external ("upstream frame source queried by position");
the scheduler treats the fetched `tr1::shared_ptr<Frame>` as opaque, so only
an identity is carried. -/
structure RFrame where
  id : ℕ
deriving DecidableEq

/-- Outcome of one `ReaderBase::GetFrameSafe(position)` call.  Modelled from
the spec: the Reader raises three distinct catchable conditions
(reader-closed, excessive-seek, position-out-of-bounds), matching the three
catch clauses of `PlayerPrivate::getFrame` (lines 139-145). -/
inductive ReaderOutcome where
  | ok (f : RFrame)
  | readerClosed
  | tooManySeeks
  | outOfBoundsFrame
deriving DecidableEq

/-- The fields of `reader->info` the scheduler reads. -/
structure ReaderInfo where
  has_audio : Bool
  has_video : Bool
  fps : ℚ

/-- The Reader as the scheduler sees it: its stream info and the outcome of
fetching each position. -/
structure Reader where
  info : ReaderInfo
  fetch : ℤ → ReaderOutcome

/-- The nominal frame interval in milliseconds:
`double frame_time = 1000.0 / reader->info.fps.ToDouble()` (line 71). -/
def frame_time (r : Reader) : ℚ := 1000 / r.info.fps

/-- The scheduler state mutated by the loop and the seek/speed commands:
`video_position`, `audio_position` (last observed audio clock), `speed`, and
the log of positions forwarded to `audioPlayback->Seek` (the audio worker is
external; the log records each command sent to it). -/
structure PlayerState where
  video_position : ℤ
  audio_position : ℤ
  speed : ℤ
  audioSeeks : List ℤ
deriving DecidableEq

/-- The state set up by the constructor (lines 34-39): positions 0, speed 1. -/
def initialPlayerState : PlayerState :=
  { video_position := 0, audio_position := 0, speed := 1, audioSeeks := [] }

/-- `PlayerPrivate::getFrame` (lines 131-147): advance `video_position` by
`speed` first, then fetch the new position; each of the three reader
conditions is caught and turned into the empty pointer.  The advanced
position is kept even when the fetch fails. -/
def getFrame (r : Reader) (s : PlayerState) : PlayerState × Option RFrame :=
  let pos := s.video_position + s.speed
  let s' := { s with video_position := pos }
  match r.fetch pos with
  | .ok f => (s', some f)
  | .readerClosed => (s', none)
  | .tooManySeeks => (s', none)
  | .outOfBoundsFrame => (s', none)

/-- The observable outcome of one iteration of the `run()` loop:
the state afterwards, the position passed to `reader->GetFrameSafe` this tick
(`none` when no fetch happened), the frame handed to the video render thread
(`some fr` models `videoPlayback->frame = fr; render.signal(); rendered.wait()`,
so `some none` is a null-frame handoff — nothing rendered, the render worker
being external per the spec), and the milliseconds slept. -/
structure TickResult where
  state : PlayerState
  queried : Option ℤ
  rendered : Option (Option RFrame)
  sleptMs : ℤ
deriving DecidableEq

/-- One iteration of the scheduling loop (lines 68-121).  `audioPos` is the
value `audioPlayback->getCurrentFramePosition()` returns this tick;
`renderTime` is the measured render duration `t2 - t1` in milliseconds.

Two source details matter here and are reproduced exactly:
* lines 91-95: `video_frame_diff = video_position - audio_position` stands
  *after* the `if (has_audio && has_video)` body (no braces in the source),
  so the difference is computed unconditionally, against the stale
  `audio_position` when either stream is missing;
* line 107: the correction `sleep_time += video_frame_diff * frame_time` is
  guarded by `video_frame_diff > 0`, so it is applied only when the video is
  ahead of the audio. -/
def tick (r : Reader) (audioPos renderTime : ℤ) (s : PlayerState) : TickResult :=
  if s.speed = 0 then
    { state := s, queried := none, rendered := none,
      sleptMs := ctrunc (frame_time r) }
  else
    let gf := getFrame r s
    let audio1 := if r.info.has_audio && r.info.has_video then audioPos
                  else gf.1.audio_position
    let video_frame_diff : ℤ := gf.1.video_position - audio1
    let sleep0 : ℤ := ctrunc (frame_time r - (renderTime : ℚ))
    let sleep1 : ℤ :=
      if 0 < video_frame_diff ∧ r.info.has_audio = true ∧ r.info.has_video = true then
        ctrunc ((sleep0 : ℚ) + (video_frame_diff : ℚ) * frame_time r)
      else sleep0
    { state := { gf.1 with audio_position := audio1 },
      queried := some gf.1.video_position,
      rendered := some gf.2,
      sleptMs := if 0 < sleep1 then sleep1 else 0 }

/-- `PlayerPrivate::Seek` (lines 166-176): for a positive position, update
`video_position` and forward the updated position to `audioPlayback->Seek`;
otherwise do nothing. -/
def Seek (s : PlayerState) (new_position : ℤ) : PlayerState :=
  if 0 < new_position then
    { s with video_position := new_position,
             audioSeeks := s.audioSeeks ++ [new_position] }
  else s

/-- The sleep the spec prescribes for a tick on a source with both streams
(§4.2 steps 7-9), stated from the spec's words for comparison with the code:
`sleep = base_sleep + diff * nominal_frame_interval` with
`base_sleep = nominal_frame_interval - elapsed` and
`diff = video_position - audio_position`, clamped at zero. -/
def specSleepFormula (ft : ℚ) (renderTime videoPos audioPos : ℤ) : ℚ :=
  (ft - (renderTime : ℚ)) + ((videoPos - audioPos : ℤ) : ℚ) * ft

/-- A 25 fps reader with both streams that always delivers a frame. -/
def okReader25 : Reader :=
  { info := { has_audio := true, has_video := true, fps := 25 },
    fetch := fun p => .ok ⟨p.toNat⟩ }

/-- A 25 fps reader with both streams that raises out-of-bounds at
position 1000. -/
def oobReader1000 : Reader :=
  { info := { has_audio := true, has_video := true, fps := 25 },
    fetch := fun p => if p = 1000 then .outOfBoundsFrame else .ok ⟨p.toNat⟩ }

/-- A state about to step onto position 98 while the audio clock reads
ahead. -/
def behindState : PlayerState :=
  { video_position := 97, audio_position := 0, speed := 1, audioSeeks := [] }

/-- A state about to step onto the failing position 1000. -/
def stateAt999 : PlayerState :=
  { video_position := 999, audio_position := 990, speed := 1, audioSeeks := [] }

/-- A paused state. -/
def pausedState : PlayerState :=
  { video_position := 500, audio_position := 400, speed := 0, audioSeeks := [] }

end Player

namespace DeckLink

/-! ### Cache and batch lemmas -/

theorem Cache.add_apply (c : Cache) (f : Frame) (k : ℤ) :
    c.add f k = if k = (f.number : ℤ) then some f else c k := rfl

/-- Two inserts with different keys commute (as functions on keys). -/
theorem Cache.add_add_of_ne (c : Cache) {f g : Frame} (h : f.number ≠ g.number) :
    (c.add f).add g = (c.add g).add f := by
  funext k
  simp only [Cache.add]
  by_cases hg : k = (g.number : ℤ)
  · by_cases hf : k = (f.number : ℤ)
    · exact absurd (by exact_mod_cast hf.symm.trans hg) h
    · have hne : ¬((g.number : ℤ) = (f.number : ℤ)) := by exact_mod_cast Ne.symm h
      simp [hg, hf, hne]
  · by_cases hf : k = (f.number : ℤ)
    · have hne : ¬((f.number : ℤ) = (g.number : ℤ)) := by exact_mod_cast h
      simp [hg, hf, hne]
    · simp [hg, hf]

/-- Folding inserts over a list touching none of them at key `k` leaves `k`
unchanged. -/
theorem foldl_add_apply_of_ne (l : List Frame) (c : Cache) (k : ℤ)
    (h : ∀ f ∈ l, (f.number : ℤ) ≠ k) :
    l.foldl Cache.add c k = c k := by
  induction l generalizing c with
  | nil => rfl
  | cons g rest ih =>
    have hg : (g.number : ℤ) ≠ k := h g (by simp)
    have := ih (c.add g) (fun f hf => h f (by simp [hf]))
    simpa [Cache.add, Ne.symm hg] using this

/-- If the keys of `l` are distinct, every member of `l` is found at its own
key after folding the inserts. -/
theorem foldl_add_apply_of_mem {l : List Frame} (c : Cache)
    (hnd : (l.map Frame.number).Nodup) {f : Frame} (hf : f ∈ l) :
    l.foldl Cache.add c ((f.number : ℤ)) = some f := by
  induction l generalizing c with
  | nil => cases hf
  | cons g rest ih =>
    have hnd' : (rest.map Frame.number).Nodup := by
      simpa using hnd.of_cons
    rcases List.mem_cons.mp hf with rfl | hmem
    · have hne : ∀ x ∈ rest, (x.number : ℤ) ≠ (f.number : ℤ) := by
        intro x hx hcontra
        have : x.number = f.number := by exact_mod_cast hcontra
        have : f.number ∈ rest.map Frame.number := this ▸ List.mem_map_of_mem _ hx
        simp only [List.map_cons, List.nodup_cons] at hnd
        exact hnd.1 this
      have := foldl_add_apply_of_ne rest (c.add f) ((f.number : ℤ)) hne
      simpa [Cache.add] using this
    · exact ih (c.add g) hnd' hmem

/-- Folding the inserts of a permutation of a distinct-key list yields the
same cache: completion order is irrelevant. -/
theorem foldl_add_perm {π l : List Frame} (hperm : π.Perm l)
    (hnd : (l.map Frame.number).Nodup) (c : Cache) :
    π.foldl Cache.add c = l.foldl Cache.add c := by
  refine hperm.foldl_eq' ?_ c
  intro x hx y hy z
  by_cases hxy : x = y
  · rw [hxy]
  · have hinj := List.inj_on_of_nodup_map hnd
    have hne : x.number ≠ y.number := by
      intro hcontra
      exact hxy (hinj (hperm.mem_iff.mp hx) (hperm.mem_iff.mp hy) hcontra)
    exact Cache.add_add_of_ne z hne

theorem batchFrames_length (fc b w h : ℕ) : (batchFrames fc b w h).length = b := by
  simp [batchFrames]

/-- The sequence numbers of a batch are `fc, fc+1, ..., fc+b-1`, fixed by the
queue position at dispatch. -/
theorem batchFrames_map_number (fc b w h : ℕ) :
    (batchFrames fc b w h).map Frame.number = (List.range b).map (fc + ·) := by
  simp [batchFrames, taskFrame, Function.comp]

theorem batchFrames_map_number_nodup (fc b w h : ℕ) :
    ((batchFrames fc b w h).map Frame.number).Nodup := by
  rw [batchFrames_map_number, ← List.range'_eq_map_range]
  exact List.nodup_range' fc b

theorem batchFrames_succ (fc b w h : ℕ) :
    batchFrames fc (b + 1) w h = taskFrame fc w h :: batchFrames (fc + 1) b w h := by
  unfold batchFrames
  rw [List.range_succ_eq_map, List.map_cons, List.map_map]
  congr 1
  apply List.map_congr_left
  intro i _
  simp only [Function.comp_apply]
  congr 1
  omega

/-- The dispatch loop is the dispatch-order fold of the batch inserts, and it
advances the sequence counter by exactly the queue length. -/
theorem drainQueue_eq (q : List RawYUVFrame) (fc : ℕ) (c : Cache) (w h : ℕ) :
    drainQueue q fc c w h = (fc + q.length, (batchFrames fc q.length w h).foldl Cache.add c) := by
  induction q generalizing fc c with
  | nil => simp [drainQueue, batchFrames]
  | cons r rest ih =>
    simp only [drainQueue, List.length_cons, batchFrames_succ, List.foldl_cons]
    rw [ih]
    congr 1
    omega

theorem applyEvents_inserts_final_frameCount (l : List Frame) (s : DelegateState) :
    (applyEvents s (l.map BatchEvent.insert)).final_frameCount = s.final_frameCount := by
  induction l generalizing s with
  | nil => rfl
  | cons f rest ih => simpa [applyEvents, applyEvent] using ih _

theorem applyEvents_inserts_cache (l : List Frame) (s : DelegateState) :
    (applyEvents s (l.map BatchEvent.insert)).final_frames
      = l.foldl Cache.add s.final_frames := by
  induction l generalizing s with
  | nil => rfl
  | cons f rest ih => simpa [applyEvents, applyEvent] using ih _

theorem applyEvents_inserts_frameCount (l : List Frame) (s : DelegateState) :
    (applyEvents s (l.map BatchEvent.insert)).frameCount = s.frameCount := by
  induction l generalizing s with
  | nil => rfl
  | cons f rest ih => simpa [applyEvents, applyEvent] using ih _

/-- The published counter read along the trace of one batch: the old value at
every point strictly before the end, the old value plus the batch size at the
end — a single atomic jump. -/
theorem scanl_batchTrace_counts (π : List Frame) (b : ℕ) (s : DelegateState) :
    (List.scanl applyEvent s (batchTrace π b)).map DelegateState.final_frameCount
      = List.replicate (π.length + 1) s.final_frameCount ++ [s.final_frameCount + b] := by
  induction π generalizing s with
  | nil => simp [batchTrace, List.scanl, applyEvent, List.replicate]
  | cons f rest ih =>
    have h1 := ih { s with final_frames := s.final_frames.add f }
    simp only [batchTrace] at h1 ⊢
    simp only [List.map_cons, List.cons_append, List.scanl_cons, List.nil_append]
    rw [show applyEvent s (BatchEvent.insert f)
          = { s with final_frames := s.final_frames.add f } from rfl, h1]
    simp [List.replicate_succ]

/-- `GetCurrentFrameNumber` depends only on the published counter. -/
theorem GetCurrentFrameNumber_congr {s t : DelegateState}
    (h : s.final_frameCount = t.final_frameCount) :
    GetCurrentFrameNumber s = GetCurrentFrameNumber t := by
  simp [GetCurrentFrameNumber, h]

/-! ### Arrival sequences -/

theorem feed_append (P : ℕ) (s : DelegateState) (l₁ l₂ : List InputVideoFrame) :
    feed P s (l₁ ++ l₂) = feed P (feed P s l₁) l₂ :=
  List.foldl_append _ _ _ _

theorem initialState_steady : Steady initialState 0 := by
  refine ⟨rfl, rfl, rfl, ⟨fun m hm0 hmn => absurd hmn (by omega), fun m _ => rfl⟩⟩

/-- Feeding fewer arrivals than the batch threshold leaves room: each is just
copied and enqueued. -/
theorem feed_fills (P : ℕ) (L : List InputVideoFrame) :
    ∀ s : DelegateState, (∀ a ∈ L, a.hasNoInputSource = false) →
    s.raw_video_frames.length + L.length < P →
    feed P s L = { s with raw_video_frames := s.raw_video_frames ++ L.map copyOf } := by
  induction L with
  | nil => intro s _ _; simp [feed]
  | cons a rest ih =>
    intro s hsig hlen
    have hstep : VideoInputFrameArrived P s (some a)
        = { s with raw_video_frames := s.raw_video_frames ++ [copyOf a] } := by
      simp only [VideoInputFrameArrived, hsig a (by simp), if_false, Bool.false_eq_true]
      rw [if_neg]
      · rfl
      · simp only [List.length_append, List.length_cons, List.length_nil]
        simp only [List.length_cons] at hlen
        omega
    show feed P (VideoInputFrameArrived P s (some a)) rest = _
    rw [hstep, ih _ (fun x hx => hsig x (by simp [hx]))
        (by simp only [List.length_append, List.length_cons, List.length_nil]
            simp only [List.length_cons] at hlen
            omega)]
    simp [copyOf]

theorem batchFrames_number_bounds {fc b w h : ℕ} {f : Frame}
    (hf : f ∈ batchFrames fc b w h) : fc ≤ f.number ∧ f.number < fc + b := by
  simp only [batchFrames, List.mem_map, List.mem_range] at hf
  obtain ⟨i, hi, rfl⟩ := hf
  simp only [taskFrame]
  omega

/-- Publishing a fresh batch of `b` frames preserves the exact-range shape of
the cache. -/
theorem cacheJustRange_extend {c : Cache} {n : ℕ} (hc : CacheJustRange c n)
    (b w h : ℕ) :
    CacheJustRange ((batchFrames n b w h).foldl Cache.add c) (n + b) := by
  constructor
  · intro m hm0 hmn
    by_cases hlow : m < (n : ℤ)
    · obtain ⟨f, hfm, hfnum⟩ := hc.1 m hm0 hlow
      refine ⟨f, ?_, hfnum⟩
      rw [foldl_add_apply_of_ne]
      · exact hfm
      · intro g hg
        have := batchFrames_number_bounds hg
        omega
    · push_neg at hlow
      refine ⟨taskFrame m.toNat w h, ?_, ?_⟩
      · have hmem : taskFrame m.toNat w h ∈ batchFrames n b w h := by
          simp only [batchFrames, List.mem_map, List.mem_range]
          refine ⟨m.toNat - n, by push_cast at hmn; omega, ?_⟩
          congr 1
          omega
        have hfold := foldl_add_apply_of_mem c (batchFrames_map_number_nodup n b w h) hmem
        rw [show ((taskFrame m.toNat w h).number : ℤ) = m from by
          simp only [taskFrame]; exact Int.toNat_of_nonneg hm0] at hfold
        exact hfold
      · simp only [taskFrame]
        exact Int.toNat_of_nonneg hm0
  · intro m hm
    rw [foldl_add_apply_of_ne]
    · refine hc.2 m ?_
      push_cast at hm ⊢
      omega
    · intro g hg
      have := batchFrames_number_bounds hg
      push_cast at hm ⊢
      omega

/-- Draining a full queue from a steady-shaped state yields the steady state
`q.length` frames further on. -/
theorem processQueuedFrames_steady (n : ℕ) (c : Cache) (hc : CacheJustRange c n)
    (q : List RawYUVFrame) (w h : ℕ) :
    Steady (processQueuedFrames ⟨n, n, q, c⟩ w h) (n + q.length) := by
  refine ⟨?_, rfl, rfl, ?_⟩
  · show (drainQueue q n c w h).1 = n + q.length
    rw [drainQueue_eq]
  · show CacheJustRange (drainQueue q n c w h).2 (n + q.length)
    rw [drainQueue_eq]
    exact cacheJustRange_extend hc q.length w h

/-- A steady state is determined by its published count and its cache. -/
theorem Steady.state_eq {s : DelegateState} {n : ℕ} (hs : Steady s n) :
    s = ⟨n, n, [], s.final_frames⟩ := by
  obtain ⟨h1, h2, h3, _⟩ := hs
  cases s
  dsimp only at h1 h2 h3 ⊢
  rw [h1, h2, h3]

/-- Publishing one full batch on top of a steady state: the counters advance
by the batch size and the cache gains exactly the new ids. -/
theorem feed_batch (P : ℕ) (hP : 0 < P) (s : DelegateState) (n : ℕ)
    (hs : Steady s n) (L : List InputVideoFrame)
    (hsig : ∀ a ∈ L, a.hasNoInputSource = false) (hlen : L.length = P) :
    Steady (feed P s L) (n + P) := by
  have hcache : CacheJustRange s.final_frames n := hs.2.2.2
  rw [hs.state_eq]
  rcases L.eq_nil_or_concat with rfl | ⟨L', a, rfl⟩
  · simp at hlen; omega
  · have hlen' : L'.length = P - 1 := by
      simp only [List.concat_eq_append, List.length_append, List.length_cons,
        List.length_nil] at hlen
      omega
    rw [List.concat_eq_append, feed_append]
    rw [feed_fills P L' ⟨n, n, [], s.final_frames⟩ (fun x hx => hsig x (by simp [hx]))
      (by dsimp only; simp only [List.length_nil, Nat.zero_add, hlen']; omega)]
    have hsingle : feed P ⟨n, n, [] ++ L'.map copyOf, s.final_frames⟩ [a]
        = VideoInputFrameArrived P ⟨n, n, [] ++ L'.map copyOf, s.final_frames⟩ (some a) := by
      simp [feed]
    have hstep : VideoInputFrameArrived P ⟨n, n, [] ++ L'.map copyOf, s.final_frames⟩ (some a)
        = processQueuedFrames
            ⟨n, n, ([] ++ L'.map copyOf) ++ [copyOf a], s.final_frames⟩ a.width a.height := by
      simp only [VideoInputFrameArrived, hsig a (by simp), Bool.false_eq_true, if_false]
      rw [if_pos]
      · rfl
      · dsimp only
        simp only [List.nil_append, List.length_append, List.length_map, List.length_cons,
          List.length_nil, hlen']
        omega
    rw [hsingle, hstep]
    have hq2 : (([] ++ L'.map copyOf) ++ [copyOf a]).length = P := by
      simp only [List.nil_append, List.length_append, List.length_map, List.length_cons,
        List.length_nil, hlen']
      omega
    have hmain := processQueuedFrames_steady n s.final_frames hcache
      (([] ++ L'.map copyOf) ++ [copyOf a]) a.width a.height
    rw [hq2] at hmain
    exact hmain

/-- Feeding `k` complete batches on top of a steady state. -/
theorem feed_batches (P : ℕ) (hP : 0 < P) (k : ℕ) :
    ∀ (s : DelegateState) (n : ℕ), Steady s n →
    ∀ L : List InputVideoFrame, (∀ a ∈ L, a.hasNoInputSource = false) →
    L.length = k * P → Steady (feed P s L) (n + k * P) := by
  induction k with
  | zero =>
    intro s n hs L _ hlen
    have : L = [] := List.length_eq_zero.mp (by omega)
    subst this
    simpa [feed] using hs
  | succ k ih =>
    intro s n hs L hsig hlen
    rw [← List.take_append_drop P L, feed_append]
    have hlen1 : (L.take P).length = P := by
      rw [List.length_take]
      have : P ≤ L.length := by rw [hlen]; nlinarith
      omega
    have hlen2 : (L.drop P).length = k * P := by
      rw [List.length_drop, hlen]
      ring_nf
      omega
    have h1 := feed_batch P hP s n hs (L.take P)
      (fun x hx => hsig x (List.mem_of_mem_take hx)) hlen1
    have h2 := ih (feed P s (L.take P)) (n + P) h1 (L.drop P)
      (fun x hx => hsig x (List.mem_of_mem_drop hx)) hlen2
    rw [show n + P + k * P = n + (k + 1) * P from by ring] at h2
    exact h2

/-! ### Further helper lemmas -/

theorem toUInt64Val_le_toNat {a : ℤ} (h : 0 ≤ a) : toUInt64Val a ≤ a.toNat := by
  unfold toUInt64Val
  have h1 : (0 : ℤ) < 2 ^ 64 := by norm_num
  have h2 : a.emod (2 ^ 64) = a - 2 ^ 64 * (a / 2 ^ 64) := Int.emod_def a (2 ^ 64)
  have h3 : 0 ≤ a / 2 ^ 64 := Int.ediv_nonneg h (le_of_lt h1)
  have h4 : a.emod (2 ^ 64) ≤ a := by nlinarith
  omega

theorem toUInt64Val_of_small {a : ℤ} (h0 : 0 ≤ a) (h : a < 2 ^ 64) :
    toUInt64Val a = a.toNat := by
  unfold toUInt64Val
  exact congrArg Int.toNat (Int.emod_eq_of_lt h0 h)

/-- A fetch whose id is absent from the cache takes the diagnostic branch and
changes nothing. -/
theorem GetFrameBody_of_none {s : DelegateState} {r : ℤ}
    (h : s.final_frames r = none) :
    GetFrameBody s r = { frame := none, state := s, diagnostic := true } := by
  unfold GetFrameBody
  rw [if_neg]
  unfold Cache.Exists
  rw [h]
  exact Bool.false_ne_true

/-- Removing never introduces a key; fetching any id leaves an absent id
absent. -/
theorem GetFrameBody_preserves_none {s : DelegateState} {key r : ℤ}
    (h : s.final_frames key = none) :
    (GetFrameBody s r).state.final_frames key = none := by
  unfold GetFrameBody
  by_cases hex : s.final_frames.Exists r = true
  · simp only [hex, if_true]
    show s.final_frames.remove r key = none
    unfold Cache.remove
    by_cases hk : key = r <;> simp [hk, h]
  · simp only [hex, if_false]
    exact h

/-! ### Claim theorems for the capture producer -/

/-- **C7.** `GetCurrentFrameNumber()` returns `final_frameCount - 1` when at
least one frame has been published, and `0` when nothing has been published
yet (DecklinkInput.cpp lines 102-108). -/
theorem GetCurrentFrameNumber_contract (s : DelegateState) :
    (0 < s.final_frameCount → GetCurrentFrameNumber s = s.final_frameCount - 1)
    ∧ (s.final_frameCount = 0 → GetCurrentFrameNumber s = 0) := by
  constructor
  · intro h
    simp [GetCurrentFrameNumber, h]
  · intro h
    simp [GetCurrentFrameNumber, h]

/-- Witness for C7: a state with six published frames reads 5; the initial
state reads 0. -/
theorem GetCurrentFrameNumber_contract_witness :
    (0 < (publishedState6.final_frameCount) ∧ GetCurrentFrameNumber publishedState6 = 5)
    ∧ (initialState.final_frameCount = 0 ∧ GetCurrentFrameNumber initialState = 0) :=
  ⟨⟨by decide, (GetCurrentFrameNumber_contract publishedState6).1 (by decide)⟩,
   ⟨rfl, (GetCurrentFrameNumber_contract initialState).2 rfl⟩⟩

/-- **C1.** For a batch of `b` raw frames dispatched together, in whatever
order the conversion tasks complete (`π` is any completion order of the
batch's frames): the callback's event trace is the `b` cache inserts followed
by the single publish; it yields exactly the state of the sequential drain;
every frame of the batch is in the cache at the moment the count is advanced;
the published counter reads its old value at every point of the trace except
the final one, where it reads old `+ b` — so `GetCurrentFrameNumber` is never
observed strictly between two batch boundaries. -/
theorem batch_publish_barrier (s : DelegateState) (w h b : ℕ)
    (hq : s.raw_video_frames.length = b)
    (π : List Frame) (hperm : π.Perm (batchFrames s.frameCount b w h)) :
    ((applyEvents s (batchTrace π b)).final_frameCount
        = (processQueuedFrames s w h).final_frameCount
      ∧ (applyEvents s (batchTrace π b)).final_frames
        = (processQueuedFrames s w h).final_frames)
    ∧ (∀ f ∈ batchFrames s.frameCount b w h,
        (applyEvents s (π.map BatchEvent.insert)).final_frames ((f.number : ℤ)) = some f)
    ∧ (List.scanl applyEvent s (batchTrace π b)).map DelegateState.final_frameCount
        = List.replicate (b + 1) s.final_frameCount ++ [s.final_frameCount + b]
    ∧ ∀ s' ∈ List.scanl applyEvent s (batchTrace π b),
        GetCurrentFrameNumber s' = GetCurrentFrameNumber s
        ∨ GetCurrentFrameNumber s' = GetCurrentFrameNumber (processQueuedFrames s w h) := by
  have hlenπ : π.length = b := by
    rw [hperm.length_eq, batchFrames_length]
  have hndb : ((batchFrames s.frameCount b w h).map Frame.number).Nodup :=
    batchFrames_map_number_nodup s.frameCount b w h
  have hndπ : (π.map Frame.number).Nodup := ((hperm.map Frame.number).nodup_iff).mpr hndb
  have htr : applyEvents s (batchTrace π b)
      = applyEvent (applyEvents s (π.map BatchEvent.insert)) (BatchEvent.publish b) := by
    simp [applyEvents, batchTrace, List.foldl_append]
  have hpqc : (processQueuedFrames s w h).final_frameCount
      = s.final_frameCount + b := by
    show s.final_frameCount + s.raw_video_frames.length = s.final_frameCount + b
    rw [hq]
  have hpqcache : (processQueuedFrames s w h).final_frames
      = (batchFrames s.frameCount b w h).foldl Cache.add s.final_frames := by
    show (drainQueue s.raw_video_frames s.frameCount s.final_frames w h).2 = _
    rw [drainQueue_eq, hq]
  have hcounts : (List.scanl applyEvent s (batchTrace π b)).map DelegateState.final_frameCount
      = List.replicate (b + 1) s.final_frameCount ++ [s.final_frameCount + b] := by
    have := scanl_batchTrace_counts π b s
    rw [hlenπ] at this
    exact this
  refine ⟨⟨?_, ?_⟩, ?_, hcounts, ?_⟩
  · rw [htr, hpqc]
    show (applyEvents s (π.map BatchEvent.insert)).final_frameCount + b
        = s.final_frameCount + b
    rw [applyEvents_inserts_final_frameCount]
  · rw [htr, hpqcache]
    show (applyEvents s (π.map BatchEvent.insert)).final_frames
        = (batchFrames s.frameCount b w h).foldl Cache.add s.final_frames
    rw [applyEvents_inserts_cache]
    exact foldl_add_perm hperm hndb s.final_frames
  · intro f hf
    rw [applyEvents_inserts_cache]
    exact foldl_add_apply_of_mem s.final_frames hndπ (hperm.mem_iff.mpr hf)
  · intro s' hs'
    have hmem : s'.final_frameCount
        ∈ (List.scanl applyEvent s (batchTrace π b)).map DelegateState.final_frameCount :=
      List.mem_map_of_mem _ hs'
    rw [hcounts] at hmem
    rcases List.mem_append.mp hmem with hrep | hone
    · exact Or.inl (GetCurrentFrameNumber_congr (List.eq_of_mem_replicate hrep))
    · refine Or.inr (GetCurrentFrameNumber_congr ?_)
      rw [List.mem_singleton.mp hone, hpqc]

/-- Witness for C1: a queue of two raw frames processed with the two
conversion tasks completing in reverse dispatch order. -/
theorem batch_publish_barrier_witness :
    (queuedState2.raw_video_frames.length = 2
      ∧ (batchFrames queuedState2.frameCount 2 640 480).reverse.Perm
          (batchFrames queuedState2.frameCount 2 640 480))
    ∧ (((applyEvents queuedState2
            (batchTrace (batchFrames queuedState2.frameCount 2 640 480).reverse 2)).final_frameCount
        = (processQueuedFrames queuedState2 640 480).final_frameCount
      ∧ (applyEvents queuedState2
            (batchTrace (batchFrames queuedState2.frameCount 2 640 480).reverse 2)).final_frames
        = (processQueuedFrames queuedState2 640 480).final_frames)
    ∧ (∀ f ∈ batchFrames queuedState2.frameCount 2 640 480,
        (applyEvents queuedState2
            ((batchFrames queuedState2.frameCount 2 640 480).reverse.map
              BatchEvent.insert)).final_frames ((f.number : ℤ)) = some f)
    ∧ (List.scanl applyEvent queuedState2
          (batchTrace (batchFrames queuedState2.frameCount 2 640 480).reverse 2)).map
            DelegateState.final_frameCount
        = List.replicate 3 queuedState2.final_frameCount
            ++ [queuedState2.final_frameCount + 2]
    ∧ ∀ s' ∈ List.scanl applyEvent queuedState2
          (batchTrace (batchFrames queuedState2.frameCount 2 640 480).reverse 2),
        GetCurrentFrameNumber s' = GetCurrentFrameNumber queuedState2
        ∨ GetCurrentFrameNumber s'
            = GetCurrentFrameNumber (processQueuedFrames queuedState2 640 480)) :=
  ⟨⟨rfl, List.reverse_perm _⟩,
   batch_publish_barrier queuedState2 640 480 2 rfl _ (List.reverse_perm _)⟩

/-- **C2.** Sequence numbers are assigned from the running counter at
dispatch time: the `i`-th dequeued raw frame's task carries number
`frameCount + i`; the sequential drain is exactly the dispatch-order fold of
those inserts; the cache resulting from any completion order `π` equals the
dispatch-order cache; and each batch frame is found in that cache under
exactly its dispatched number. -/
theorem sequence_numbers_fixed_at_dispatch (s : DelegateState) (w h : ℕ)
    (π : List Frame)
    (hperm : π.Perm (batchFrames s.frameCount s.raw_video_frames.length w h)) :
    ((batchFrames s.frameCount s.raw_video_frames.length w h).map Frame.number
        = (List.range s.raw_video_frames.length).map (s.frameCount + ·))
    ∧ drainQueue s.raw_video_frames s.frameCount s.final_frames w h
        = (s.frameCount + s.raw_video_frames.length,
           (batchFrames s.frameCount s.raw_video_frames.length w h).foldl Cache.add
             s.final_frames)
    ∧ π.foldl Cache.add s.final_frames
        = (batchFrames s.frameCount s.raw_video_frames.length w h).foldl Cache.add
            s.final_frames
    ∧ ∀ f ∈ batchFrames s.frameCount s.raw_video_frames.length w h,
        (π.foldl Cache.add s.final_frames) ((f.number : ℤ)) = some f := by
  have hndb := batchFrames_map_number_nodup s.frameCount s.raw_video_frames.length w h
  have hndπ : (π.map Frame.number).Nodup := ((hperm.map Frame.number).nodup_iff).mpr hndb
  refine ⟨batchFrames_map_number _ _ _ _, drainQueue_eq _ _ _ _ _,
    foldl_add_perm hperm hndb s.final_frames, ?_⟩
  intro f hf
  exact foldl_add_apply_of_mem s.final_frames hndπ (hperm.mem_iff.mpr hf)

/-- **C5.** After `k` complete batches of size `P` (so `N = k * P` raw frames
with live signal), `GetCurrentFrameNumber() = N - 1`, and every id
`i ∈ [0, N)` is fetchable exactly once: `GetFrame(i)` does not wait, returns
a frame carrying exactly number `i` and removes it from the cache, a repeated
fetch of the same id comes back empty, and no later fetch of any id
reintroduces `i`. -/
theorem complete_batches_all_fetchable_once
    (P k : ℕ) (hP : 0 < P) (hk : 0 < k)
    (L : List InputVideoFrame) (hsig : ∀ a ∈ L, a.hasNoInputSource = false)
    (hlen : L.length = k * P) (i : ℤ) (hi0 : 0 ≤ i) (hiN : i < (k * P : ℕ)) :
    GetCurrentFrameNumber (feed P initialState L) = k * P - 1
    ∧ getFrameWaits (feed P initialState L) i = false
    ∧ (∃ f, (GetFrameBody (feed P initialState L) i).frame = some f ∧ (f.number : ℤ) = i)
    ∧ (GetFrameBody (feed P initialState L) i).state.final_frames i = none
    ∧ (GetFrameBody (GetFrameBody (feed P initialState L) i).state i).frame = none
    ∧ ∀ m : ℤ, (GetFrameBody (GetFrameBody (feed P initialState L) i).state m).state.final_frames i
        = none := by
  have hsteady : Steady (feed P initialState L) (k * P) := by
    have := feed_batches P hP k initialState 0 initialState_steady L hsig hlen
    rwa [Nat.zero_add] at this
  obtain ⟨hfc, hffc, hqe, hcr⟩ := hsteady
  have hN : 0 < k * P := Nat.mul_pos hk hP
  have hcur : GetCurrentFrameNumber (feed P initialState L) = k * P - 1 := by
    unfold GetCurrentFrameNumber
    rw [hffc, if_pos hN]
  have hwaits : getFrameWaits (feed P initialState L) i = false := by
    unfold getFrameWaits
    have h1 : toUInt64Val i ≤ i.toNat := toUInt64Val_le_toNat hi0
    have h2 : i.toNat < k * P := by omega
    rw [hcur]
    simp only [decide_eq_false_iff_not, not_lt]
    omega
  obtain ⟨f, hfm, hfnum⟩ := hcr.1 i hi0 (by exact_mod_cast hiN)
  have hex : (feed P initialState L).final_frames.Exists i = true := by
    unfold Cache.Exists
    rw [hfm]
    rfl
  have hbody : GetFrameBody (feed P initialState L) i
      = { frame := (feed P initialState L).final_frames i,
          state := { feed P initialState L with
            final_frames := (feed P initialState L).final_frames.remove i },
          diagnostic := false } := by
    unfold GetFrameBody
    rw [if_pos hex]
    rfl
  have hremoved : (GetFrameBody (feed P initialState L) i).state.final_frames i = none := by
    rw [hbody]
    show (feed P initialState L).final_frames.remove i i = none
    unfold Cache.remove
    simp
  refine ⟨hcur, hwaits, ⟨f, ?_, hfnum⟩, hremoved, ?_, ?_⟩
  · rw [hbody, hfm]
  · rw [GetFrameBody_of_none hremoved]
  · intro m
    exact GetFrameBody_preserves_none hremoved

/-- Witness for C5: one complete batch of two frames; frame id 1 is fetched
once, then found absent. -/
theorem complete_batches_all_fetchable_once_witness :
    ((0 : ℕ) < 2 ∧ (0 : ℕ) < 1
      ∧ (∀ a ∈ [arrival640, arrival640], a.hasNoInputSource = false)
      ∧ ([arrival640, arrival640].length = 1 * 2) ∧ ((0 : ℤ) ≤ 1) ∧ ((1 : ℤ) < (1 * 2 : ℕ)))
    ∧ (GetCurrentFrameNumber (feed 2 initialState [arrival640, arrival640]) = 1 * 2 - 1
    ∧ getFrameWaits (feed 2 initialState [arrival640, arrival640]) 1 = false
    ∧ (∃ f, (GetFrameBody (feed 2 initialState [arrival640, arrival640]) 1).frame = some f
        ∧ (f.number : ℤ) = 1)
    ∧ (GetFrameBody (feed 2 initialState [arrival640, arrival640]) 1).state.final_frames 1 = none
    ∧ (GetFrameBody (GetFrameBody (feed 2 initialState [arrival640, arrival640]) 1).state 1).frame
        = none
    ∧ ∀ m : ℤ, (GetFrameBody
        (GetFrameBody (feed 2 initialState [arrival640, arrival640]) 1).state m).state.final_frames 1
        = none) :=
  ⟨⟨by decide, by decide, by decide, by decide, by decide, by decide⟩,
   complete_batches_all_fetchable_once 2 1 (by decide) (by decide) [arrival640, arrival640]
     (by decide) (by decide) 1 (by decide) (by decide)⟩

/-- **C4 counterexample.** The claim asserts that for *every* `n`,
`GetFrame(n)` polls exactly while `GetCurrentFrameNumber() < n`.  At
`n = -1` with six frames published, `GetCurrentFrameNumber() = 5 ≥ -1`, so
the claim predicts no waiting — but in the source the `int64_t` argument is
compared against the `unsigned long` counter, the usual arithmetic
conversions wrap `-1` to `2^64 - 1`, and the poll loop spins. -/
theorem getFrame_blocking_counterexample :
    getFrameWaits publishedState6 (-1) = true
    ∧ ¬ ((GetCurrentFrameNumber publishedState6 : ℤ) < -1) := by
  constructor
  · decide
  · decide

/-- **C4, amended.** For every requested id `n` in the value range `[0, 2^63)`
of nonnegative `int64_t` (negative ids wrap around to huge unsigned values
and spin forever, see the counterexample): the poll loop waits exactly while
`GetCurrentFrameNumber() < n`; once it does not wait, if frame `n` is in the
cache it is returned and removed with no diagnostic, and if it is absent the
call prints the diagnostic dump, leaves the state untouched and returns the
empty pointer. -/
theorem getFrame_blocking_contract (s : DelegateState) (n : ℤ)
    (hn0 : 0 ≤ n) (hn : n < 2 ^ 63) :
    (getFrameWaits s n = true ↔ (GetCurrentFrameNumber s : ℤ) < n)
    ∧ ((s.final_frames n).isSome = true →
        (GetFrameBody s n).frame = s.final_frames n
        ∧ (GetFrameBody s n).state.final_frames n = none
        ∧ (GetFrameBody s n).diagnostic = false)
    ∧ (s.final_frames n = none →
        (GetFrameBody s n).frame = none ∧ (GetFrameBody s n).state = s
        ∧ (GetFrameBody s n).diagnostic = true) := by
  refine ⟨?_, ?_, ?_⟩
  · unfold getFrameWaits
    rw [toUInt64Val_of_small hn0 (by omega)]
    simp only [decide_eq_true_eq]
    omega
  · intro hsome
    have hex : s.final_frames.Exists n = true := hsome
    unfold GetFrameBody
    rw [if_pos hex]
    refine ⟨rfl, ?_, rfl⟩
    show s.final_frames.remove n n = none
    unfold Cache.remove
    simp
  · intro hnone
    have hex : ¬ s.final_frames.Exists n = true := by
      unfold Cache.Exists
      rw [hnone]
      exact Bool.false_ne_true
    unfold GetFrameBody
    rw [if_neg hex]
    exact ⟨rfl, rfl, rfl⟩

/-- Witness for C4 (amended): in a state with three frames published and
frame 1 cached, `GetFrame(1)` does not wait and retrieves the frame;
`GetFrame(2)` on the emptied cache misses with a diagnostic. -/
theorem getFrame_blocking_contract_witness :
    ((0 : ℤ) ≤ 1 ∧ (1 : ℤ) < 2 ^ 63)
    ∧ ((getFrameWaits fetchState3 1 = true ↔ (GetCurrentFrameNumber fetchState3 : ℤ) < 1)
    ∧ ((fetchState3.final_frames 1).isSome = true →
        (GetFrameBody fetchState3 1).frame = fetchState3.final_frames 1
        ∧ (GetFrameBody fetchState3 1).state.final_frames 1 = none
        ∧ (GetFrameBody fetchState3 1).diagnostic = false)
    ∧ (fetchState3.final_frames 1 = none →
        (GetFrameBody fetchState3 1).frame = none ∧ (GetFrameBody fetchState3 1).state = fetchState3
        ∧ (GetFrameBody fetchState3 1).diagnostic = true)) :=
  ⟨⟨by decide, by decide⟩, getFrame_blocking_contract fetchState3 1 (by decide) (by decide)⟩

/-- **C10 counterexample.** The claim asserts that `GetFrame(n)` for every
`n ≤ 0` returns immediately before anything is published.  At `n = -1` on the
freshly constructed delegate the unsigned comparison wraps `-1` to
`2^64 - 1 > 0 = GetCurrentFrameNumber()`, so the poll loop spins instead of
returning. -/
theorem getFrame_nonpositive_counterexample :
    getFrameWaits initialState (-1) = true
    ∧ initialState.final_frameCount = 0 := by
  constructor
  · decide
  · rfl

/-- **C10, amended.** Restricted to `n = 0` the claim holds: because
`GetCurrentFrameNumber()` returns 0 both when nothing is published and when
frame 0 is ready, `GetFrame(0)` called before any batch is published does not
wait, takes the cache-miss branch (printing the diagnostic dump) and returns
the empty pointer, leaving the state untouched. -/
theorem getFrame_zero_before_publish (s : DelegateState)
    (_hcount : s.final_frameCount = 0) (hempty : ∀ k, s.final_frames k = none) :
    getFrameWaits s 0 = false
    ∧ (GetFrameBody s 0).frame = none
    ∧ (GetFrameBody s 0).diagnostic = true
    ∧ (GetFrameBody s 0).state = s := by
  have hwaits : getFrameWaits s 0 = false := by
    unfold getFrameWaits
    rw [show toUInt64Val 0 = 0 from by decide]
    simp
  rw [GetFrameBody_of_none (hempty 0)]
  exact ⟨hwaits, rfl, rfl, rfl⟩

/-- Witness for C10 (amended): the freshly constructed delegate. -/
theorem getFrame_zero_before_publish_witness :
    (initialState.final_frameCount = 0)
    ∧ (getFrameWaits initialState 0 = false
    ∧ (GetFrameBody initialState 0).frame = none
    ∧ (GetFrameBody initialState 0).diagnostic = true
    ∧ (GetFrameBody initialState 0).state = initialState) :=
  ⟨rfl, getFrame_zero_before_publish initialState rfl (fun _ => rfl)⟩

/-- Witness for C2: the two-frame queue with reversed completion order. -/
theorem sequence_numbers_fixed_at_dispatch_witness :
    ((batchFrames queuedState2.frameCount queuedState2.raw_video_frames.length 640 480).reverse.Perm
        (batchFrames queuedState2.frameCount queuedState2.raw_video_frames.length 640 480))
    ∧ (((batchFrames queuedState2.frameCount queuedState2.raw_video_frames.length 640 480).map
          Frame.number
        = (List.range queuedState2.raw_video_frames.length).map (queuedState2.frameCount + ·))
    ∧ drainQueue queuedState2.raw_video_frames queuedState2.frameCount
          queuedState2.final_frames 640 480
        = (queuedState2.frameCount + queuedState2.raw_video_frames.length,
           (batchFrames queuedState2.frameCount queuedState2.raw_video_frames.length
              640 480).foldl Cache.add queuedState2.final_frames)
    ∧ (batchFrames queuedState2.frameCount queuedState2.raw_video_frames.length
          640 480).reverse.foldl Cache.add queuedState2.final_frames
        = (batchFrames queuedState2.frameCount queuedState2.raw_video_frames.length
            640 480).foldl Cache.add queuedState2.final_frames
    ∧ ∀ f ∈ batchFrames queuedState2.frameCount queuedState2.raw_video_frames.length 640 480,
        ((batchFrames queuedState2.frameCount queuedState2.raw_video_frames.length
            640 480).reverse.foldl Cache.add queuedState2.final_frames) ((f.number : ℤ))
          = some f) :=
  ⟨List.reverse_perm _,
   sequence_numbers_fixed_at_dispatch queuedState2 640 480 _ (List.reverse_perm _)⟩

end DeckLink

namespace Player

/-! ### Lemmas about the scheduler -/

theorem getFrame_fst (r : Reader) (s : PlayerState) :
    (getFrame r s).1 = { s with video_position := s.video_position + s.speed } := by
  unfold getFrame
  dsimp only
  cases r.fetch (s.video_position + s.speed) <;> rfl

theorem getFrame_of_error {r : Reader} {s : PlayerState}
    (herr : r.fetch (s.video_position + s.speed) = .readerClosed
      ∨ r.fetch (s.video_position + s.speed) = .tooManySeeks
      ∨ r.fetch (s.video_position + s.speed) = .outOfBoundsFrame) :
    getFrame r s = ({ s with video_position := s.video_position + s.speed }, none) := by
  unfold getFrame
  dsimp only
  rcases herr with h | h | h <;> rw [h]

theorem tick_queried_of_speed_ne {s : PlayerState} (r : Reader) (ap rt : ℤ)
    (h : s.speed ≠ 0) :
    (tick r ap rt s).queried = some (s.video_position + s.speed) := by
  unfold tick
  rw [if_neg h]
  show some (getFrame r s).1.video_position = _
  rw [getFrame_fst]

theorem tick_state_of_speed_ne {s : PlayerState} (r : Reader) (ap rt : ℤ)
    (h : s.speed ≠ 0) :
    (tick r ap rt s).state.video_position = s.video_position + s.speed
    ∧ (tick r ap rt s).state.speed = s.speed := by
  unfold tick
  rw [if_neg h]
  constructor
  · show (getFrame r s).1.video_position = _
    rw [getFrame_fst]
  · show (getFrame r s).1.speed = s.speed
    rw [getFrame_fst]

theorem tick_rendered_of_speed_ne {s : PlayerState} (r : Reader) (ap rt : ℤ)
    (h : s.speed ≠ 0) :
    (tick r ap rt s).rendered = some (getFrame r s).2 := by
  unfold tick
  rw [if_neg h]

/-! ### Claim theorems for the playback scheduler -/

/-- **C8.** `Seek(p)` with `p > 0` sets the video position to `p` and forwards
`p` to the audio subsystem exactly once (one new entry in the command log),
touching nothing else; `Seek(p)` with `p ≤ 0` changes nothing at all. -/
theorem seek_contract (s : PlayerState) (p : ℤ) :
    (0 < p →
      (Seek s p).video_position = p
      ∧ (Seek s p).audioSeeks = s.audioSeeks ++ [p]
      ∧ (Seek s p).audio_position = s.audio_position
      ∧ (Seek s p).speed = s.speed)
    ∧ (p ≤ 0 → Seek s p = s) := by
  constructor
  · intro hp
    unfold Seek
    rw [if_pos hp]
    exact ⟨rfl, rfl, rfl, rfl⟩
  · intro hp
    unfold Seek
    rw [if_neg (by omega)]

/-- Witness for C8: seeking to 250 from a concrete state, and the no-op seek
to 0. -/
theorem seek_contract_witness :
    ((0 : ℤ) < 250
      ∧ ((Seek stateAt999 250).video_position = 250
      ∧ (Seek stateAt999 250).audioSeeks = stateAt999.audioSeeks ++ [250]
      ∧ (Seek stateAt999 250).audio_position = stateAt999.audio_position
      ∧ (Seek stateAt999 250).speed = stateAt999.speed))
    ∧ ((0 : ℤ) ≤ 0 ∧ Seek stateAt999 0 = stateAt999) :=
  ⟨⟨by decide, (seek_contract stateAt999 250).1 (by decide)⟩,
   ⟨le_refl 0, (seek_contract stateAt999 0).2 (le_refl 0)⟩⟩

/-- **C9.** A tick with `speed = 0` sleeps one nominal frame interval (the
`int` conversion of `frame_time`) and does nothing else: the state is
unchanged, the Reader is not queried, nothing is handed to the render thread,
and any number of such ticks leaves the position unchanged. -/
theorem paused_tick_no_effect (r : Reader) (audioPos renderTime : ℤ)
    (s : PlayerState) (hspeed : s.speed = 0) :
    (tick r audioPos renderTime s).state = s
    ∧ (tick r audioPos renderTime s).queried = none
    ∧ (tick r audioPos renderTime s).rendered = none
    ∧ (tick r audioPos renderTime s).sleptMs = ctrunc (frame_time r)
    ∧ ∀ n : ℕ, (fun st => (tick r audioPos renderTime st).state)^[n] s = s := by
  have h1 : tick r audioPos renderTime s
      = { state := s, queried := none, rendered := none,
          sleptMs := ctrunc (frame_time r) } := by
    unfold tick
    rw [if_pos hspeed]
  refine ⟨by rw [h1], by rw [h1], by rw [h1], by rw [h1], ?_⟩
  intro n
  apply Function.iterate_fixed
  rw [h1]

/-- Witness for C9: a paused state ticked with arbitrary clock readings. -/
theorem paused_tick_no_effect_witness :
    (pausedState.speed = 0)
    ∧ ((tick okReader25 7 3 pausedState).state = pausedState
    ∧ (tick okReader25 7 3 pausedState).queried = none
    ∧ (tick okReader25 7 3 pausedState).rendered = none
    ∧ (tick okReader25 7 3 pausedState).sleptMs = ctrunc (frame_time okReader25)
    ∧ ∀ n : ℕ, (fun st => (tick okReader25 7 3 st).state)^[n] pausedState = pausedState) :=
  ⟨rfl, paused_tick_no_effect okReader25 7 3 pausedState rfl⟩

/-- **C6.** On a tick with nonzero speed whose fetch raises any of the three
reader conditions: the position was advanced by `speed` before the fetch and
the failing fetch was at that advanced position; the condition is caught and
a null frame is handed to the render thread (nothing rendered); the loop does
not stop — the state keeps the advanced position and the next tick fetches
the advanced position plus `speed`. -/
theorem reader_error_swallowed (r : Reader) (audioPos renderTime audioPos2 renderTime2 : ℤ)
    (s : PlayerState) (hspeed : s.speed ≠ 0)
    (herr : r.fetch (s.video_position + s.speed) = .readerClosed
      ∨ r.fetch (s.video_position + s.speed) = .tooManySeeks
      ∨ r.fetch (s.video_position + s.speed) = .outOfBoundsFrame) :
    (tick r audioPos renderTime s).queried = some (s.video_position + s.speed)
    ∧ (tick r audioPos renderTime s).rendered = some none
    ∧ (tick r audioPos renderTime s).state.video_position = s.video_position + s.speed
    ∧ (tick r audioPos2 renderTime2 ((tick r audioPos renderTime s).state)).queried
        = some (s.video_position + 2 * s.speed) := by
  have hst := tick_state_of_speed_ne (s := s) r audioPos renderTime hspeed
  refine ⟨tick_queried_of_speed_ne r audioPos renderTime hspeed, ?_, hst.1, ?_⟩
  · rw [tick_rendered_of_speed_ne r audioPos renderTime hspeed,
      getFrame_of_error herr]
  · rw [tick_queried_of_speed_ne r audioPos2 renderTime2 (by rw [hst.2]; exact hspeed),
      hst.1, hst.2]
    congr 1
    ring

/-- Witness for C6 (Scenario C): the reader raises out-of-bounds at 1000;
the tick queries 1000, renders nothing, keeps position 1000, and the next
tick queries 1001. -/
theorem reader_error_swallowed_witness :
    (stateAt999.speed ≠ 0
      ∧ (oobReader1000.fetch (stateAt999.video_position + stateAt999.speed)
          = ReaderOutcome.readerClosed
        ∨ oobReader1000.fetch (stateAt999.video_position + stateAt999.speed)
          = ReaderOutcome.tooManySeeks
        ∨ oobReader1000.fetch (stateAt999.video_position + stateAt999.speed)
          = ReaderOutcome.outOfBoundsFrame))
    ∧ ((tick oobReader1000 990 5 stateAt999).queried
        = some (stateAt999.video_position + stateAt999.speed)
    ∧ (tick oobReader1000 990 5 stateAt999).rendered = some none
    ∧ (tick oobReader1000 990 5 stateAt999).state.video_position
        = stateAt999.video_position + stateAt999.speed
    ∧ (tick oobReader1000 991 5 ((tick oobReader1000 990 5 stateAt999).state)).queried
        = some (stateAt999.video_position + 2 * stateAt999.speed)) :=
  ⟨⟨by decide, by decide⟩,
   reader_error_swallowed oobReader1000 990 5 991 5 stateAt999 (by decide) (by decide)⟩

/-- **C3 (code bug).** Claim: on a tick with both streams the sleep equals
`base_sleep + diff * nominal_frame_interval`, so a video behind the audio
(`diff < 0`) sleeps less.  In the source the correction at line 113 is
guarded by `video_frame_diff > 0` (line 107), although the comment right
there says a frame behind the audio should sleep less — and the guarded
block's companion assignment at line 95 sits outside its `if`.  Evaluating
the embedded tick at 25 fps (interval 40 ms), render time 10 ms, video at 98
against audio at 100 (`diff = -2`): the code sleeps the uncorrected 30 ms,
while the spec formula gives `30 + (-2)·40 = -50`, i.e. no sleep at all. -/
theorem drift_correction_not_applied_when_behind :
    (tick okReader25 100 10 behindState).sleptMs = 30
    ∧ specSleepFormula (frame_time okReader25) 10 98 100 = -50
    ∧ max (specSleepFormula (frame_time okReader25) 10 98 100) 0 = 0
    ∧ ((tick okReader25 100 10 behindState).sleptMs : ℚ)
        ≠ max (specSleepFormula (frame_time okReader25) 10 98 100) 0 := by
  have hslept : (tick okReader25 100 10 behindState).sleptMs = 30 := by
    unfold tick
    rw [if_neg (by decide)]
    dsimp only
    rw [show getFrame okReader25 behindState = (⟨98, 0, 1, []⟩, some ⟨98⟩) from rfl]
    dsimp only
    norm_num [frame_time, okReader25, ctrunc]
  have hspec : specSleepFormula (frame_time okReader25) 10 98 100 = -50 := by
    norm_num [specSleepFormula, frame_time, okReader25]
  have hmax : max (specSleepFormula (frame_time okReader25) 10 98 100) 0 = 0 := by
    rw [hspec]
    norm_num
  refine ⟨hslept, hspec, hmax, ?_⟩
  rw [hslept, hmax]
  norm_num

end Player
